import Mathlib

/-
  Verification development for the Anode-Analyzer dashboard (src/app.py).

  The pipeline of the application is shallowly embedded below:
  rows are association lists from column names to rational values, a missing
  association modelling a pandas NaN / absent cell; tables carry an explicit
  column list; timestamps are seconds (as naturals) computed by a model of
  strptime for the fixed layout "%d/%m/%Y %H:%M:%S"; fallible steps return
  Option / Except.
-/

namespace AnodeApp

/-- A cell value: `none` models a missing value (pandas NaN / absent cell). -/
abbrev Cell := Option ℚ

/-- A row of sensor readings: association list from column name to numeric
value; a column absent from the list reads as a missing value. -/
abbrev Row := List (String × ℚ)

/-- Read the value of column `c` in row `r` (`none` when absent, as NaN). -/
def getCell (r : Row) (c : String) : Cell :=
  (r.find? (fun p => p.1 == c)).map (fun p => p.2)

/-- Write column `c` of row `r` to value `v` (absent when `v = none`). -/
def setCell (r : Row) (c : String) (v : Cell) : Row :=
  (r.filter (fun p => p.1 != c)) ++ (match v with | some q => [(c, q)] | none => [])

/-- NaN-propagating addition, as the pandas `+` operator on two columns. -/
def oadd : Cell → Cell → Cell
  | some a, some b => some (a + b)
  | _, _ => none

/-- Split a character list at every occurrence of the separator. -/
def splitOnChar (sep : Char) : List Char → List (List Char)
  | [] => [[]]
  | c :: rest =>
    let r := splitOnChar sep rest
    if c = sep then [] :: r
    else
      match r with
      | [] => [[c]]
      | h :: t => (c :: h) :: t

/-- Numeric parse of a nonempty all-digit field (used for date/time parts). -/
def digits? (l : List Char) : Option Nat :=
  if l ≠ [] ∧ l.all Char.isDigit then
    some (l.foldl (fun n c => n * 10 + (c.toNat - 48)) 0)
  else none

/-- Gregorian leap-year rule. -/
def isLeap (y : Nat) : Bool :=
  (y % 4 == 0 && y % 100 != 0) || y % 400 == 0

/-- Number of days of month `m` in year `y`. -/
def daysInMonth (y m : Nat) : Nat :=
  if m = 2 then (if isLeap y then 29 else 28)
  else if m = 4 ∨ m = 6 ∨ m = 9 ∨ m = 11 then 30
  else 31

/-- Day count of the civil date `y-m-d` from a fixed epoch (proleptic
Gregorian calendar, days-from-civil construction). -/
def daysFromCivil (y m d : Nat) : Nat :=
  let y0 := if m ≤ 2 then y - 1 else y
  let era := y0 / 400
  let yoe := y0 % 400
  let mp := if 2 < m then m - 3 else m + 9
  let doy := (153 * mp + 2) / 5 + (d - 1)
  let doe := yoe * 365 + yoe / 4 - yoe / 100 + doy
  era * 146097 + doe

/-- Parse a date in the fixed day-first layout `DD/MM/YYYY`, validating the
calendar ranges; `none` on any failure (the `errors='coerce'` path). -/
def parseDate (s : String) : Option (Nat × Nat × Nat) :=
  match splitOnChar '/' s.data with
  | [ds, ms, ys] => do
    let d ← digits? ds
    let m ← digits? ms
    let y ← digits? ys
    if 1 ≤ y ∧ 1 ≤ m ∧ m ≤ 12 ∧ 1 ≤ d ∧ d ≤ daysInMonth y m then some (y, m, d)
    else none
  | _ => none

/-- Parse a time in the fixed layout `HH:MM:SS` to seconds of the day,
validating the ranges; `none` on any failure. -/
def parseTime (s : String) : Option Nat :=
  match splitOnChar ':' s.data with
  | [hs, ms, ss] => do
    let h ← digits? hs
    let mi ← digits? ms
    let se ← digits? ss
    if h ≤ 23 ∧ mi ≤ 59 ∧ se ≤ 59 then some (h * 3600 + mi * 60 + se)
    else none
  | _ => none

/-- Parse `"<date> <time>"` under the fixed layout `%d/%m/%Y %H:%M:%S` into
absolute seconds; `none` models `pd.to_datetime(..., errors='coerce')`
producing NaT. -/
def parseTimestamp (s : String) : Option Nat :=
  match splitOnChar ' ' s.data with
  | [ds, ts] => do
    let ymd ← parseDate (String.mk ds)
    let secs ← parseTime (String.mk ts)
    some (daysFromCivil ymd.1 ymd.2.1 ymd.2.2 * 86400 + secs)
  | _ => none

/-- One raw input row: the mandatory DATE and TIME text fields plus the
numeric channel cells. -/
structure RawRow where
  date : String
  time : String
  cells : Row
deriving DecidableEq

/-- One successfully parsed uploaded file: its channel column names
(whitespace-trimmed on load) and its raw rows. -/
structure RawFile where
  cols : List String
  rows : List RawRow
deriving DecidableEq

/-- A timestamped row of the combined series. -/
abbrev TRow := Nat × Row

/-- Ordering of timestamped rows by their timestamp. -/
abbrev tsLe (a b : TRow) : Prop := a.1 ≤ b.1

instance : DecidableRel tsLe := fun a b => inferInstanceAs (Decidable (a.1 ≤ b.1))

instance : IsTotal TRow tsLe := ⟨fun a b => Nat.le_total a.1 b.1⟩

instance : IsTrans TRow tsLe := ⟨fun _ _ _ h₁ h₂ => Nat.le_trans h₁ h₂⟩

/-- Attach the parsed Timestamp to a raw row; `none` when
`DATE + ' ' + TIME` does not parse under the fixed layout. -/
def stampRow (r : RawRow) : Option TRow :=
  (parseTimestamp (r.date ++ " " ++ r.time)).map (fun t => (t, r.cells))

/-- The timestamp normalizer: attach timestamps, drop rows that fail to
parse (`dropna(subset=['Timestamp'])`), sort ascending by Timestamp. -/
def normalizeRows (rows : List RawRow) : List TRow :=
  (rows.filterMap stampRow).insertionSort tsLe

/-- Full name of the derived single-zone column. -/
def bareName : String := "Bare Anode B7 (REC.1)"

/-- Full name of the derived left column. -/
def leftName : String := "Total Left Bare Anode (L6+B4)"

/-- Full name of the derived right column. -/
def rightName : String := "Total Right Bare Anode (R6+R8)"

/-- Full name of the derived bottom column. -/
def bottomName : String := "Total Bottom Bare Anode (B2+B3+L8+L10+L12)"

/-- Full name of the derived overall column. -/
def overallName : String := "Overall Bare Anode"

/-- The five derived column names, in the order the code creates them. -/
def derivedNames : List String :=
  [bareName, leftName, rightName, bottomName, overallName]

/-- Source channels of the bottom derived column. -/
def bottomSources : List String := ["B2", "B3", "L8", "L10", "L12"]

/-- Source channels of the overall derived column. -/
def overallSources : List String :=
  ["B7", "L6", "B4", "R6", "R8", "B2", "B3", "L8", "L10", "L12"]

/-- Row-wise NaN-skipping sum of the named columns (`DataFrame.sum(axis=1)`). -/
def rowSum (r : Row) (cs : List String) : ℚ :=
  (cs.map (fun c => (getCell r c).getD 0)).sum

/-- The derived column synthesizer applied to one row, given the column set
`cols` of the combined table: the five rules of `load_and_combine_data`. -/
def addDerived (cols : List String) (r : Row) : Row :=
  let v1 : Cell := if "B7" ∈ cols then getCell r "B7" else some 0
  let v2 : Cell :=
    if "L6" ∈ cols ∧ "B4" ∈ cols then oadd (getCell r "L6") (getCell r "B4")
    else some 0
  let v3 : Cell :=
    if "R6" ∈ cols ∧ "R8" ∈ cols then oadd (getCell r "R6") (getCell r "R8")
    else some 0
  let existingBottom := bottomSources.filter (fun c => cols.contains c)
  let v4 : Cell := if existingBottom ≠ [] then some (rowSum r existingBottom) else some 0
  let existingOverall := overallSources.filter (fun c => cols.contains c)
  let v5 : Cell := if existingOverall ≠ [] then some (rowSum r existingOverall) else some 0
  setCell (setCell (setCell (setCell (setCell r bareName v1)
    leftName v2) rightName v3) bottomName v4) overallName v5

/-- The combined series: explicit column list and timestamp-indexed rows. -/
structure Series where
  cols : List String
  rows : List TRow
deriving DecidableEq

/-- Column-name union of the uploaded files, in order of first appearance
(`pd.concat` column union). -/
def unionCols (files : List RawFile) : List String :=
  files.foldl (fun acc f => acc ++ f.cols.filter (fun c => ! acc.contains c)) []

/-- `load_and_combine_data`: concatenate the uploaded files, build the
Timestamp, drop unparseable rows, sort, synthesize the five derived
columns; `none` when no file parsed. -/
def load_and_combine_data (files : List RawFile) : Option Series :=
  if files.isEmpty then none
  else
    let cols := unionCols files
    let raw := (files.map RawFile.rows).flatten
    let sorted := normalizeRows raw
    some { cols := cols ++ derivedNames
           rows := sorted.map (fun tr => (tr.1, addDerived cols tr.2)) }

/-- `np.trapz y x`: trapezoidal integration of the samples `y` against the
abscissae `x`, with NaN propagation through the arithmetic. -/
def np_trapz : List Cell → List ℚ → Cell
  | y1 :: y2 :: ys, x1 :: x2 :: xs =>
      oadd ((oadd y1 y2).map (fun s => s / 2 * (x2 - x1)))
        (np_trapz (y2 :: ys) (x2 :: xs))
  | _, _ => some 0

/-- `calculate_auc`: the charge integrator. Input rows are (timestamp in
seconds as ℚ, cell value) pairs. The outer `none` models the IndexError of
`df.index[0]` on an empty series; the inner `none`s model NaN results. -/
def calculate_auc (rows : List (ℚ × Cell)) : Option (Cell × Cell × Cell) :=
  match rows with
  | [] => none
  | r0 :: rest =>
    let t0 := r0.1
    let x := (r0 :: rest).map (fun p => p.1 - t0)
    let y := (r0 :: rest).map (fun p => p.2)
    let area := np_trapz y x
    let ampHours := area.map (fun a => a / 3600)
    let duration := ((r0 :: rest).getLastD r0).1 - t0
    let avg := if 0 < duration then area.map (fun a => a / duration) else some 0
    some (area, ampHours, avg)

/-- Extract one column of the series as (timestamp, cell) pairs, the shape
`calculate_auc` consumes. -/
def extractColumn (s : Series) (c : String) : List (ℚ × Cell) :=
  s.rows.map (fun tr => ((tr.1 : ℚ), getCell tr.2 c))

/-- NaN-skipping minimum of a column (`Series.min()`); `none` when no value. -/
def colMin (s : Series) (c : String) : Option ℚ :=
  match s.rows.filterMap (fun tr => getCell tr.2 c) with
  | [] => none
  | v :: vs => some (vs.foldl min v)

/-- NaN-skipping maximum of a column (`Series.max()`); `none` when no value. -/
def colMax (s : Series) (c : String) : Option ℚ :=
  match s.rows.filterMap (fun tr => getCell tr.2 c) with
  | [] => none
  | v :: vs => some (vs.foldl max v)

/-- Epoch-aligned bucket start of timestamp `t` for bucket width `w`. -/
def bucketOf (w t : Nat) : Nat := t / w * w

/-- The raw rows of `s` falling in the bucket starting at `b`. -/
def bucketRows (s : Series) (w b : Nat) : List TRow :=
  s.rows.filter (fun tr => bucketOf w tr.1 == b)

/-- Arithmetic mean of a list of values; `none` when the list is empty
(pandas groupwise `mean()` of an empty / all-NaN group). -/
def meanOpt (l : List ℚ) : Option ℚ :=
  match l with
  | [] => none
  | _ => some (l.sum / l.length)

/-- The defined values of column `c` among the raw rows in bucket `b`. -/
def bucketValues (s : Series) (w b : Nat) (c : String) : List ℚ :=
  (bucketRows s w b).filterMap (fun tr => getCell tr.2 c)

/-- The full regular bucket grid from the first row's bucket to the last
row's bucket (the index `resample` generates). -/
def gridOf (s : Series) (w : Nat) : List Nat :=
  match s.rows with
  | [] => []
  | r0 :: rest =>
    let first := bucketOf w r0.1
    let last := bucketOf w ((r0 :: rest).getLastD r0).1
    (List.range ((last - first) / w + 1)).map (fun i => first + i * w)

/-- `df.resample(rule).mean()` for a fixed bucket width of `w` seconds:
one output row per grid bucket, each numeric column aggregated by the
arithmetic mean of its defined values in the bucket. -/
def resample (w : Nat) (s : Series) : Series :=
  { cols := s.cols
    rows := (gridOf s w).map (fun b =>
      (b, s.cols.filterMap (fun c =>
        (meanOpt (bucketValues s w b c)).map (fun v => (c, v))))) }

/-- The resampling step of the app: `if selected_resample_rule: ... resample`,
where `none` is the "5s (Default)" rule that leaves the series unchanged. -/
def resampleOpt (rule : Option Nat) (s : Series) : Series :=
  match rule with
  | none => s
  | some w => resample w s

/-- Does the second character list start with the first? -/
def leadsWith : List Char → List Char → Bool
  | [], _ => true
  | _ :: _, [] => false
  | p :: ps, c :: cs => p == c && leadsWith ps cs

/-- Substring occurrence on character lists. -/
def containsList (pat : List Char) : List Char → Bool
  | [] => pat.isEmpty
  | c :: cs => leadsWith pat (c :: cs) || containsList pat cs

/-- Substring test (the Python `in` operator on strings). -/
def containsStr (s pat : String) : Bool := containsList pat.data s.data

/-- `FIXED_TOTAL_COLS`: pre-existing Total columns (name contains "Total"
but not "Bare Anode") followed by the five derived columns, kept when
present among the numeric columns. -/
def fixedTotalCols (s : Series) : List String :=
  let allNumeric := s.cols
  let originalFixed := allNumeric.filter
    (fun c => containsStr c "Total" && ! containsStr c "Bare Anode")
  (originalFixed ++ derivedNames).filter (fun c => allNumeric.contains c)

/-- `sorted_fixed_cols`: the Overall Summary Table ordering (REC columns,
then Bare Anode columns, then the rest). -/
def sortedFixedCols (s : Series) : List String :=
  let F := fixedTotalCols s
  let recCols := F.filter (fun c => containsStr c "REC" || c == "Total")
  let bareCols := F.filter (fun c => containsStr c "Bare Anode")
  let otherCols := F.filter (fun c => ! recCols.contains c && ! bareCols.contains c)
  recCols ++ bareCols ++ otherCols

/-- The per-column summary tuple: the `calculate_auc` result together with
the NaN-skipping min and max of the column. -/
structure ColSummary where
  auc : Option (Cell × Cell × Cell)
  minVal : Option ℚ
  maxVal : Option ℚ
deriving DecidableEq

/-- Build the summary tuple of column `c` from the series `s`. -/
def summarizeCol (s : Series) (c : String) : ColSummary :=
  { auc := calculate_auc (extractColumn s c)
    minVal := colMin s c
    maxVal := colMax s c }

/-- The range filter: rows with Timestamp in `[a, b]`, both ends inclusive. -/
def rangeFilter (s : Series) (a b : Nat) : Series :=
  { cols := s.cols
    rows := s.rows.filter (fun tr => decide (a ≤ tr.1) && decide (tr.1 ≤ b)) }

/-- Restrict the series to the given columns (`df[cols]`). -/
def selectCols (s : Series) (cs : List String) : Series :=
  { cols := cs.filter (fun c => s.cols.contains c)
    rows := s.rows.map (fun tr => (tr.1, tr.2.filter (fun p => cs.contains p.1))) }

/-- The user-visible error signals of one interaction. -/
inductive PipeError
  | noFiles
  | noValidData
  | startAfterEnd
  | emptyRange
deriving DecidableEq

/-- The outputs of one successful interaction: the (possibly resampled)
charting rows and the per-column summary tuples. -/
structure Result where
  plotRows : List TRow
  summaries : List (String × ColSummary)
deriving DecidableEq

instance {ε α : Type} [DecidableEq ε] [DecidableEq α] : DecidableEq (Except ε α) :=
  fun a b =>
    match a, b with
    | .error x, .error y => decidable_of_iff (x = y) (by simp)
    | .ok x, .ok y => decidable_of_iff (x = y) (by simp)
    | .error _, .ok _ => isFalse (by simp)
    | .ok _, .error _ => isFalse (by simp)

/-- One end-to-end interaction of the app: load and combine, halt on the
error conditions in the order the script checks them, then build the
resampled charting view and the summaries from the raw filtered series. -/
def runInteraction (files : List RawFile) (a b : Nat) (rule : Option Nat)
    (sel : List String) : Except PipeError Result :=
  match load_and_combine_data files with
  | none => .error .noFiles
  | some df =>
    if df.rows.isEmpty then .error .noValidData
    else if b < a then .error .startAfterEnd
    else
      let filtered := rangeFilter df a b
      if filtered.rows.isEmpty then .error .emptyRange
      else
        let plotCols := (sel ++ fixedTotalCols df).dedup
        let plotSeries := resampleOpt rule (selectCols filtered plotCols)
        let sumCols := sortedFixedCols df ++ sel
        .ok { plotRows := plotSeries.rows
              summaries := sumCols.map (fun c => (c, summarizeCol filtered c)) }

/-! ### Specification-side definitions for the charge integrator -/

/-- Trapezoidal numerical integration over (abscissa, sample) pairs, as the
spec describes it: the area of the trapezoid between consecutive samples,
summed. -/
def trapezoid : List (ℚ × ℚ) → ℚ
  | (e1, y1) :: (e2, y2) :: rest => (y1 + y2) / 2 * (e2 - e1) + trapezoid ((e2, y2) :: rest)
  | _ => 0

/-- The (elapsed seconds from the first sample, current) pairs of a series. -/
def elapsedPairs (rows : List (ℚ × ℚ)) : List (ℚ × ℚ) :=
  rows.map (fun p => (p.1 - (rows.headD (0, 0)).1, p.2))

/-- Spec-side charge: trapezoidal integration over the elapsed-seconds pairs. -/
def specCharge (rows : List (ℚ × ℚ)) : ℚ := trapezoid (elapsedPairs rows)

/-- Spec-side span: timestamp of the last sample minus the first. -/
def specSpan (rows : List (ℚ × ℚ)) : ℚ :=
  (rows.getLastD (0, 0)).1 - (rows.headD (0, 0)).1

/-! ### List helper lemmas -/

lemma getLastD_cons_default {α : Type} (p d d' : α) (l : List α) :
    (p :: l).getLastD d = (p :: l).getLastD d' := by
  rw [List.getLastD_eq_getLast?, List.getLastD_eq_getLast?,
    List.getLast?_eq_getLast _ (List.cons_ne_nil p l)]
  rfl

lemma getLastD_map {α β : Type} (f : α → β) (l : List α) (d : α) :
    (l.map f).getLastD (f d) = f (l.getLastD d) := by
  rw [List.getLastD_eq_getLast?, List.getLastD_eq_getLast?, List.getLast?_map]
  cases h : l.getLast? <;> simp

lemma pairwise_head_le_getLastD {α β : Type} [Preorder β] (key : α → β) (p : α)
    (l : List α) (hs : (p :: l).Pairwise (fun a b => key a ≤ key b)) :
    key p ≤ key ((p :: l).getLastD p) := by
  have hall : ∀ x ∈ p :: l, key p ≤ key x := by
    intro x hx
    rcases List.mem_cons.mp hx with h | h
    · exact h ▸ le_refl _
    · exact (List.pairwise_cons.mp hs).1 x h
  have hne : (p :: l) ≠ [] := List.cons_ne_nil _ _
  have heq : (p :: l).getLastD p = (p :: l).getLast hne := by
    rw [List.getLastD_eq_getLast?, List.getLast?_eq_getLast _ hne]
    rfl
  rw [heq]
  exact hall _ (List.getLast_mem hne)

/-! ### The integrator against its specification -/

lemma np_trapz_map_some (c : ℚ) :
    ∀ l : List (ℚ × ℚ),
      np_trapz (l.map (fun p => some p.2)) (l.map (fun p => p.1 - c)) =
        some (trapezoid l) := by
  intro l
  induction l with
  | nil => rfl
  | cons p t ih =>
    cases t with
    | nil => rfl
    | cons q r =>
      simp only [List.map_cons] at ih ⊢
      rw [np_trapz, ih]
      simp only [oadd, Option.map_some', trapezoid]
      congr 1
      ring

lemma trapezoid_shift (c : ℚ) :
    ∀ l : List (ℚ × ℚ), trapezoid (l.map (fun p => (p.1 - c, p.2))) = trapezoid l := by
  intro l
  induction l with
  | nil => rfl
  | cons p t ih =>
    cases t with
    | nil => rfl
    | cons q r =>
      simp only [List.map_cons] at ih ⊢
      rw [trapezoid, trapezoid, ih]
      congr 1
      ring

/-- C1. On every series with at least two rows, sorted by timestamp as the
combined series is, `calculate_auc` returns exactly the spec values: charge
is trapezoidal integration of the column over elapsed seconds from the first
sample, ampere-hours is that charge divided by 3600, and average current is
the charge divided by the span between last and first sample. -/
theorem calculate_auc_matches_spec (rows : List (ℚ × ℚ)) (h2 : 2 ≤ rows.length)
    (hs : rows.Pairwise (fun p q => p.1 ≤ q.1)) :
    calculate_auc (rows.map (fun p => (p.1, some p.2))) =
      some (some (specCharge rows), some (specCharge rows / 3600),
        some (specCharge rows / specSpan rows)) := by
  cases rows with
  | nil => simp at h2
  | cons p rest =>
    have hcharge : specCharge (p :: rest) = trapezoid (p :: rest) := by
      unfold specCharge elapsedPairs
      simp only [List.headD_cons]
      exact trapezoid_shift p.1 (p :: rest)
    have hspan : specSpan (p :: rest) = ((p :: rest).getLastD p).1 - p.1 := by
      unfold specSpan
      rw [getLastD_cons_default p ((0 : ℚ), (0 : ℚ)) p rest]
      simp only [List.headD_cons]
    have harea := np_trapz_map_some p.1 (p :: rest)
    simp only [List.map_cons] at harea
    have hlast : ((rest.map (fun p => (p.1, some p.2))).getLastD
        ((p.1, some p.2) : ℚ × Cell)).1 = ((p :: rest).getLastD p).1 := by
      have hm := getLastD_map (fun p : ℚ × ℚ => (p.1, some p.2)) (p :: rest) p
      simp only [List.map_cons, List.getLastD_cons] at hm ⊢
      rw [hm]
    unfold calculate_auc
    simp only [List.map_cons, List.map_map, Function.comp_def, List.getLastD_cons]
    rw [harea, hlast, ← hcharge, ← hspan]
    by_cases hd : 0 < specSpan (p :: rest)
    · simp [hd]
    · have hge : (0 : ℚ) ≤ specSpan (p :: rest) := by
        rw [hspan]
        have := pairwise_head_le_getLastD Prod.fst p rest hs
        simpa using this
      have hzero : specSpan (p :: rest) = 0 := le_antisymm (not_lt.mp hd) hge
      simp [hd, hzero]

/-- C1 witness: the two-row series of the spec scenario, samples 10 A at
t = 0 s and 20 A at t = 10 s, yields 150 coulombs, 150/3600 ampere-hours
and an average current of 15 A. -/
theorem calculate_auc_matches_spec_witness :
    2 ≤ ([((0 : ℚ), (10 : ℚ)), (10, 20)] : List (ℚ × ℚ)).length ∧
    calculate_auc (([((0 : ℚ), (10 : ℚ)), (10, 20)] : List (ℚ × ℚ)).map
        (fun p => (p.1, some p.2))) =
      some (some 150, some (150 / 3600), some 15) := by
  refine ⟨by norm_num, ?_⟩
  rw [calculate_auc_matches_spec _ (by norm_num) (by decide)]
  norm_num [specCharge, specSpan, elapsedPairs, trapezoid]

/-- C4 counterexample: on a zero-row series the integrator does not return
zero charge and zero average current; it fails with an index error
(`df.index[0]` on an empty index), modelled by the `none` result. -/
theorem calculate_auc_empty_raises :
    calculate_auc ([] : List (ℚ × Cell)) = none ∧
    (none : Option (Cell × Cell × Cell)) ≠ some (some 0, some 0, some 0) := by
  exact ⟨rfl, by decide⟩

/-- C4 amended: a one-row series yields charge 0, ampere-hours 0 and average
current 0, with no error and no division by zero; only the zero-row case of
the claim fails (and the pipeline never reaches it, halting earlier on an
empty filtered range). -/
theorem calculate_auc_single_row (t : ℚ) (v : Cell) :
    calculate_auc [(t, v)] = some (some 0, some 0, some 0) := by
  simp [calculate_auc, np_trapz]

/-- C8: resampling with rule = none is the identity: the output series is
the input series, unchanged, at the original sampling granularity. -/
theorem resample_none_id (s : Series) : resampleOpt none s = s := rfl

/-! ### Cell-access lemmas -/

lemma find?_filter_of_imp {α : Type} (p q : α → Bool)
    (himp : ∀ x, p x = true → q x = true) :
    ∀ l : List α, (l.filter q).find? p = l.find? p := by
  intro l
  induction l with
  | nil => rfl
  | cons a t ih =>
    by_cases hq : q a = true
    · rw [List.filter_cons_of_pos hq]
      by_cases hp : p a = true
      · rw [List.find?_cons_of_pos _ hp, List.find?_cons_of_pos _ hp]
      · rw [List.find?_cons_of_neg _ hp, List.find?_cons_of_neg _ hp, ih]
    · have hp : ¬ p a = true := fun h => hq (himp a h)
      rw [List.filter_cons_of_neg hq, List.find?_cons_of_neg _ hp, ih]

lemma find_filter_ne (r : Row) (c : String) :
    (r.filter (fun p => p.1 != c)).find? (fun p => p.1 == c) = none := by
  rw [List.find?_eq_none]
  intro x hx
  have h2 := (List.mem_filter.mp hx).2
  simp only [bne_iff_ne, ne_eq] at h2
  simp only [beq_iff_eq]
  exact h2

lemma getCell_setCell_self (r : Row) (c : String) (v : Cell) :
    getCell (setCell r c v) c = v := by
  unfold getCell setCell
  rw [List.find?_append, find_filter_ne]
  cases v with
  | some q => simp
  | none => simp

lemma getCell_setCell_ne (r : Row) {c c2 : String} {v : Cell} (h : c2 ≠ c) :
    getCell (setCell r c v) c2 = getCell r c2 := by
  unfold getCell setCell
  rw [List.find?_append]
  have htail : (match v with | some q => [(c, q)] | none => ([] : Row)).find?
      (fun p : String × ℚ => p.1 == c2) = none := by
    cases v with
    | some q =>
      have hcc : (((c, q) : String × ℚ).1 == c2) = false := by
        simp only [beq_eq_false_iff_ne, ne_eq]
        exact fun hh => h hh.symm
      rw [List.find?_cons_of_neg _ (by simp [hcc])]
      rfl
    | none => rfl
  rw [htail, Option.or_none]
  have hf := find?_filter_of_imp (fun p => p.1 == c2) (fun p => p.1 != c)
    (fun x hx => by
      simp only [beq_iff_eq] at hx
      simp only [bne_iff_ne, ne_eq, hx]
      exact h) r
  rw [hf]

/-! ### The derived-column synthesizer, row by row -/

lemma getCell_addDerived_src (cols : List String) (r : Row) (c : String)
    (h : c ∉ derivedNames) :
    getCell (addDerived cols r) c = getCell r c := by
  simp only [derivedNames, List.mem_cons, List.not_mem_nil, or_false, not_or] at h
  obtain ⟨h1, h2, h3, h4, h5⟩ := h
  simp only [addDerived]
  rw [getCell_setCell_ne _ h5, getCell_setCell_ne _ h4, getCell_setCell_ne _ h3,
    getCell_setCell_ne _ h2, getCell_setCell_ne _ h1]

lemma getCell_addDerived_bare (cols : List String) (r : Row) :
    getCell (addDerived cols r) bareName =
      if "B7" ∈ cols then getCell r "B7" else some 0 := by
  simp only [addDerived]
  rw [getCell_setCell_ne _ (by decide), getCell_setCell_ne _ (by decide),
    getCell_setCell_ne _ (by decide), getCell_setCell_ne _ (by decide),
    getCell_setCell_self]

lemma getCell_addDerived_left (cols : List String) (r : Row) :
    getCell (addDerived cols r) leftName =
      if "L6" ∈ cols ∧ "B4" ∈ cols then oadd (getCell r "L6") (getCell r "B4")
      else some 0 := by
  simp only [addDerived]
  rw [getCell_setCell_ne _ (by decide), getCell_setCell_ne _ (by decide),
    getCell_setCell_ne _ (by decide), getCell_setCell_self]

lemma getCell_addDerived_right (cols : List String) (r : Row) :
    getCell (addDerived cols r) rightName =
      if "R6" ∈ cols ∧ "R8" ∈ cols then oadd (getCell r "R6") (getCell r "R8")
      else some 0 := by
  simp only [addDerived]
  rw [getCell_setCell_ne _ (by decide), getCell_setCell_ne _ (by decide),
    getCell_setCell_self]

lemma getCell_addDerived_bottom (cols : List String) (r : Row) :
    getCell (addDerived cols r) bottomName =
      some (rowSum r (bottomSources.filter (fun c => cols.contains c))) := by
  simp only [addDerived]
  rw [getCell_setCell_ne _ (by decide), getCell_setCell_self]
  by_cases hfb : bottomSources.filter (fun c => cols.contains c) ≠ []
  · rw [if_pos hfb]
  · rw [if_neg hfb]
    rw [not_not] at hfb
    rw [hfb]
    rfl

lemma getCell_addDerived_overall (cols : List String) (r : Row) :
    getCell (addDerived cols r) overallName =
      some (rowSum r (overallSources.filter (fun c => cols.contains c))) := by
  simp only [addDerived]
  rw [getCell_setCell_self]
  by_cases hfb : overallSources.filter (fun c => cols.contains c) ≠ []
  · rw [if_pos hfb]
  · rw [if_neg hfb]
    rw [not_not] at hfb
    rw [hfb]
    rfl

/-! ### Inverting the combined-series builder -/

lemma load_eq (files : List RawFile) (df : Series)
    (h : load_and_combine_data files = some df) :
    df.cols = unionCols files ++ derivedNames ∧
    df.rows = (normalizeRows ((files.map RawFile.rows).flatten)).map
      (fun tr => (tr.1, addDerived (unionCols files) tr.2)) := by
  unfold load_and_combine_data at h
  by_cases he : files.isEmpty
  · simp [he] at h
  · rw [if_neg he] at h
    injection h with h2
    subst h2
    exact ⟨rfl, rfl⟩

lemma mem_union_of_mem_cols {u : List String} {c : String}
    (hc : c ∉ derivedNames) : (c ∈ u ++ derivedNames) ↔ c ∈ u := by
  rw [List.mem_append]
  exact ⟨fun h => h.resolve_right hc, Or.inl⟩

lemma contains_union_append (u : List String) (c : String)
    (hc : c ∉ derivedNames) : (u ++ derivedNames).contains c = u.contains c := by
  unfold List.contains
  rw [List.elem_eq_mem, List.elem_eq_mem]
  simp only [decide_eq_decide, List.mem_append]
  exact ⟨fun h => h.resolve_right hc, Or.inl⟩

lemma bottom_not_derived : ∀ x ∈ bottomSources, x ∉ derivedNames := by decide

lemma overall_not_derived : ∀ x ∈ overallSources, x ∉ derivedNames := by decide

lemma contains_eq_false_of_not_mem {u : List String} {c : String} (h : c ∉ u) :
    u.contains c = false := by
  unfold List.contains
  rw [List.elem_eq_mem]
  simpa using h

/-! ### Concrete example inputs (used by witnesses and counterexamples) -/

/-- A file providing channel R6 only. -/
def exFileR6 : RawFile := ⟨["R6"], [⟨"01/01/2025", "00:00:00", [("R6", 5)]⟩]⟩

/-- A file providing no channel columns at all. -/
def exFilePlain : RawFile := ⟨[], [⟨"01/01/2025", "00:00:05", []⟩]⟩

/-- The two-file upload of the partial-availability scenario. -/
def exFiles : List RawFile := [exFileR6, exFilePlain]

/-- The combined series the pipeline builds from `exFiles`. -/
def exDf : Series := (load_and_combine_data exFiles).getD ⟨[], []⟩

/-- The first (earliest) combined row, the one contributed by `exFileR6`. -/
def exRow0 : TRow := exDf.rows.headD (0, [])

/-- An upload containing none of the derived-column source channels. -/
def exFilesNoSrc : List RawFile :=
  [⟨["X1"], [⟨"01/01/2025", "00:00:00", [("X1", 3)]⟩]⟩]

/-! ### C2: how the derived columns really combine their sources -/

/-- C2 counterexample: with one uploaded file carrying `R6` and the other
carrying neither `R6` nor `R8`, the combined table does contain `R6`
(value 5 in the first row, absent in the second), yet
`Total Right Bare Anode (R6+R8)` is 0 everywhere instead of reflecting the
available source value 5. -/
theorem right_column_ignores_available_subset :
    (load_and_combine_data exFiles).map (fun df => df.rows.map
      (fun tr => (getCell tr.2 "R6", getCell tr.2 rightName)))
      = some [(some 5, some 0), (none, some 0)] ∧
    (some (5 : ℚ) : Cell) ≠ some 0 := by
  exact ⟨by decide, by decide⟩

/-- C2 amended: row-wise, the Bottom and Overall derived columns sum
whichever subset of their source channels exists in the combined column set
(missing values skipped); the single-source Bare Anode column copies its
source when present; but the Left and Right columns require both of their
source channels present in the combined column set and otherwise fall back
entirely to zero, and when both are present a missing value in either
source makes the derived value missing. -/
theorem derived_subset_rules (files : List RawFile) (df : Series) (t : Nat)
    (r : Row) (hload : load_and_combine_data files = some df)
    (hmem : (t, r) ∈ df.rows) :
    (getCell r bareName = if "B7" ∈ df.cols then getCell r "B7" else some 0) ∧
    (getCell r leftName = if "L6" ∈ df.cols ∧ "B4" ∈ df.cols then
        oadd (getCell r "L6") (getCell r "B4") else some 0) ∧
    (getCell r rightName = if "R6" ∈ df.cols ∧ "R8" ∈ df.cols then
        oadd (getCell r "R6") (getCell r "R8") else some 0) ∧
    (getCell r bottomName =
      some (rowSum r (bottomSources.filter (fun c => df.cols.contains c)))) ∧
    (getCell r overallName =
      some (rowSum r (overallSources.filter (fun c => df.cols.contains c)))) := by
  obtain ⟨hcols, hrows⟩ := load_eq files df hload
  rw [hrows] at hmem
  obtain ⟨tr0, htr0, heq⟩ := List.mem_map.mp hmem
  have her : addDerived (unionCols files) tr0.2 = r := congrArg Prod.snd heq
  subst her
  refine ⟨?_, ?_, ?_, ?_, ?_⟩
  · rw [getCell_addDerived_bare, getCell_addDerived_src _ _ "B7" (by decide), hcols]
    simp only [mem_union_of_mem_cols (show ("B7" : String) ∉ derivedNames by decide)]
  · rw [getCell_addDerived_left, getCell_addDerived_src _ _ "L6" (by decide),
      getCell_addDerived_src _ _ "B4" (by decide), hcols]
    simp only [mem_union_of_mem_cols (show ("L6" : String) ∉ derivedNames by decide),
      mem_union_of_mem_cols (show ("B4" : String) ∉ derivedNames by decide)]
  · rw [getCell_addDerived_right, getCell_addDerived_src _ _ "R6" (by decide),
      getCell_addDerived_src _ _ "R8" (by decide), hcols]
    simp only [mem_union_of_mem_cols (show ("R6" : String) ∉ derivedNames by decide),
      mem_union_of_mem_cols (show ("R8" : String) ∉ derivedNames by decide)]
  · rw [getCell_addDerived_bottom, hcols]
    have hfil : bottomSources.filter
        (fun c => (unionCols files ++ derivedNames).contains c) =
        bottomSources.filter (fun c => (unionCols files).contains c) := by
      apply List.filter_congr
      intro x hx
      exact contains_union_append _ x (bottom_not_derived x hx)
    rw [hfil]
    congr 1
    unfold rowSum
    congr 1
    apply List.map_congr_left
    intro x hx
    have hxb : x ∈ bottomSources := List.mem_of_mem_filter hx
    rw [getCell_addDerived_src _ _ x (bottom_not_derived x hxb)]
  · rw [getCell_addDerived_overall, hcols]
    have hfil : overallSources.filter
        (fun c => (unionCols files ++ derivedNames).contains c) =
        overallSources.filter (fun c => (unionCols files).contains c) := by
      apply List.filter_congr
      intro x hx
      exact contains_union_append _ x (overall_not_derived x hx)
    rw [hfil]
    congr 1
    unfold rowSum
    congr 1
    apply List.map_congr_left
    intro x hx
    have hxb : x ∈ overallSources := List.mem_of_mem_filter hx
    rw [getCell_addDerived_src _ _ x (overall_not_derived x hxb)]

/-- C2 witness: the amended rules applied to the first combined row of the
two-file scenario, where `R6` exists but `R8` does not, so the Right column
reads zero. -/
theorem derived_subset_rules_witness :
    (load_and_combine_data exFiles = some exDf) ∧
    ((exRow0.1, exRow0.2) ∈ exDf.rows) ∧
    (getCell exRow0.2 rightName = if "R6" ∈ exDf.cols ∧ "R8" ∈ exDf.cols then
        oadd (getCell exRow0.2 "R6") (getCell exRow0.2 "R8") else some 0) := by
  have hload : load_and_combine_data exFiles = some exDf := rfl
  have hmem : (exRow0.1, exRow0.2) ∈ exDf.rows := List.mem_cons_self _ _
  exact ⟨hload, hmem,
    (derived_subset_rules exFiles exDf exRow0.1 exRow0.2 hload hmem).2.2.1⟩

/-! ### C9: the derived columns always exist -/

/-- C9: for every nonempty upload the combiner succeeds, all five derived
column names are present in the combined series, and any derived column all
of whose source channels are absent from every uploaded file is zero on
every row (the synthesizer never raises). -/
theorem derived_always_present (files : List RawFile) (hne : files ≠ []) :
    ∃ df, load_and_combine_data files = some df ∧
      (∀ n ∈ derivedNames, n ∈ df.cols) ∧
      (∀ tr ∈ df.rows,
        ("B7" ∉ df.cols → getCell tr.2 bareName = some 0) ∧
        ("L6" ∉ df.cols ∧ "B4" ∉ df.cols → getCell tr.2 leftName = some 0) ∧
        ("R6" ∉ df.cols ∧ "R8" ∉ df.cols → getCell tr.2 rightName = some 0) ∧
        ((∀ c ∈ bottomSources, c ∉ df.cols) → getCell tr.2 bottomName = some 0) ∧
        ((∀ c ∈ overallSources, c ∉ df.cols) → getCell tr.2 overallName = some 0)) := by
  cases files with
  | nil => exact absurd rfl hne
  | cons f fs =>
    refine ⟨_, rfl, ?_, ?_⟩
    · intro n hn
      exact List.mem_append_right _ hn
    · intro tr htr
      obtain ⟨tr0, htr0, heq⟩ := List.mem_map.mp htr
      subst heq
      refine ⟨?_, ?_, ?_, ?_, ?_⟩
      · intro hB7
        have hnu : "B7" ∉ unionCols (f :: fs) :=
          fun hc => hB7 (List.mem_append_left _ hc)
        rw [getCell_addDerived_bare, if_neg hnu]
      · intro hLB
        have hnu : ¬ ("L6" ∈ unionCols (f :: fs) ∧ "B4" ∈ unionCols (f :: fs)) :=
          fun hc => hLB.1 (List.mem_append_left _ hc.1)
        rw [getCell_addDerived_left, if_neg hnu]
      · intro hRR
        have hnu : ¬ ("R6" ∈ unionCols (f :: fs) ∧ "R8" ∈ unionCols (f :: fs)) :=
          fun hc => hRR.1 (List.mem_append_left _ hc.1)
        rw [getCell_addDerived_right, if_neg hnu]
      · intro hall
        have hfil : bottomSources.filter
            (fun c => (unionCols (f :: fs)).contains c) = [] := by
          rw [List.filter_eq_nil_iff]
          intro x hx
          have hnx : x ∉ unionCols (f :: fs) :=
            fun hc => hall x hx (List.mem_append_left _ hc)
          exact fun hcontra => hnx (List.mem_of_elem_eq_true hcontra)
        rw [getCell_addDerived_bottom, hfil]
        rfl
      · intro hall
        have hfil : overallSources.filter
            (fun c => (unionCols (f :: fs)).contains c) = [] := by
          rw [List.filter_eq_nil_iff]
          intro x hx
          have hnx : x ∉ unionCols (f :: fs) :=
            fun hc => hall x hx (List.mem_append_left _ hc)
          exact fun hcontra => hnx (List.mem_of_elem_eq_true hcontra)
        rw [getCell_addDerived_overall, hfil]
        rfl

/-- C9 witness: the upload whose single file carries only the unrelated
channel X1; the combiner succeeds, all derived names are present and all
five derived columns are zero. -/
theorem derived_always_present_witness :
    ∃ df, load_and_combine_data exFilesNoSrc = some df ∧
      (∀ n ∈ derivedNames, n ∈ df.cols) ∧
      (∀ tr ∈ df.rows,
        ("B7" ∉ df.cols → getCell tr.2 bareName = some 0) ∧
        ("L6" ∉ df.cols ∧ "B4" ∉ df.cols → getCell tr.2 leftName = some 0) ∧
        ("R6" ∉ df.cols ∧ "R8" ∉ df.cols → getCell tr.2 rightName = some 0) ∧
        ((∀ c ∈ bottomSources, c ∉ df.cols) → getCell tr.2 bottomName = some 0) ∧
        ((∀ c ∈ overallSources, c ∉ df.cols) → getCell tr.2 overallName = some 0)) :=
  derived_always_present exFilesNoSrc (by decide)

/-! ### C6: the timestamp normalizer -/

/-- C6: for every concatenated raw table the normalizer (a) sorts the kept
rows ascending by Timestamp, (b) keeps exactly the rows whose
`"<date> <time>"` concatenation parses under the fixed day-first layout,
dropping the rest without failing; and in the concrete scenario a row with
TIME = "99:99:99" is dropped while the remaining rows survive, sorted. -/
theorem normalize_drops_and_sorts :
    (∀ rows : List RawRow,
      List.Sorted tsLe (normalizeRows rows) ∧
      (normalizeRows rows).Perm (rows.filterMap (fun r =>
        (parseTimestamp (r.date ++ " " ++ r.time)).map (fun t => (t, r.cells))))) ∧
    stampRow (⟨"01/01/2025", "99:99:99", [("A", 2)]⟩ : RawRow) = none ∧
    (normalizeRows [⟨"01/01/2025", "00:00:10", [("A", 1)]⟩,
        ⟨"01/01/2025", "99:99:99", [("A", 2)]⟩,
        ⟨"01/01/2025", "00:00:00", [("A", 3)]⟩]).map (fun tr => tr.2) =
      [[("A", 3)], [("A", 1)]] := by
  refine ⟨fun rows => ⟨List.sorted_insertionSort tsLe _,
    List.perm_insertionSort tsLe _⟩, by decide, by decide⟩

/-! ### C7: start after end halts the interaction -/

/-- C7: whenever the combined series loaded and is nonempty but the chosen
start timestamp is strictly after the end timestamp, the interaction
produces the user-visible start-after-end error: no rows are returned and
no downstream stage (filter, resample, integrate) runs. -/
theorem start_after_end_halts (files : List RawFile) (df : Series) (a b : Nat)
    (rule : Option Nat) (sel : List String)
    (hload : load_and_combine_data files = some df) (hne : df.rows ≠ [])
    (hab : b < a) :
    runInteraction files a b rule sel = .error .startAfterEnd := by
  have h1 : df.rows.isEmpty = false := by
    cases hrows : df.rows
    · exact absurd hrows hne
    · rfl
  simp [runInteraction, hload, h1, hab]

/-- C7 witness: the two-file upload filtered with start 10 and end 5 halts
with the start-after-end error. -/
theorem start_after_end_halts_witness :
    runInteraction exFiles 10 5 none [] = .error .startAfterEnd :=
  start_after_end_halts exFiles exDf 10 5 none [] rfl (by decide) (by decide)

/-! ### C3 and C10: summaries come from the raw filtered series -/

lemma runInteraction_ok (files : List RawFile) (a b : Nat) (rule : Option Nat)
    (sel : List String) (df : Series) (res : Result)
    (hload : load_and_combine_data files = some df)
    (hok : runInteraction files a b rule sel = .ok res) :
    res.summaries = (sortedFixedCols df ++ sel).map
      (fun c => (c, summarizeCol (rangeFilter df a b) c)) := by
  unfold runInteraction at hok
  rw [hload] at hok
  simp only at hok
  by_cases h1 : df.rows.isEmpty
  · rw [if_pos h1] at hok
    exact Except.noConfusion hok
  · rw [if_neg h1] at hok
    by_cases h2 : b < a
    · rw [if_pos h2] at hok
      exact Except.noConfusion hok
    · rw [if_neg h2] at hok
      by_cases h3 : (rangeFilter df a b).rows.isEmpty
      · rw [if_pos h3] at hok
        exact Except.noConfusion hok
      · rw [if_neg h3] at hok
        injection hok with h4
        rw [← h4]

lemma runInteraction_rule_blind {γ : Type} (files : List RawFile) (a b : Nat)
    (rule : Option Nat) (sel : List String)
    (g : Result → γ) (hg : ∀ r1 r2 : Result, r1.summaries = r2.summaries →
      g r1 = g r2) :
    (runInteraction files a b rule sel).map g =
      (runInteraction files a b none sel).map g := by
  unfold runInteraction
  cases hload : load_and_combine_data files with
  | none => rfl
  | some df =>
    simp only
    by_cases h1 : df.rows.isEmpty
    · rw [if_pos h1, if_pos h1]
    · rw [if_neg h1, if_neg h1]
      by_cases h2 : b < a
      · rw [if_pos h2, if_pos h2]
      · rw [if_neg h2, if_neg h2]
        by_cases h3 : (rangeFilter df a b).rows.isEmpty
        · rw [if_pos h3, if_pos h3]
        · rw [if_neg h3, if_neg h3]
          simp only [Except.map]
          congr 1
          exact hg _ _ rfl

/-- C3: the charge, ampere-hour and average-current triples of the Overall
Summary Table and Module Summary come from `calculate_auc` applied to the
raw range-filtered series; in particular they are identical for every
resample rule, so the resampled charting view is never integrated. -/
theorem summary_auc_from_raw (files : List RawFile) (a b : Nat)
    (rule : Option Nat) (sel : List String) (df : Series) (res : Result)
    (hload : load_and_combine_data files = some df)
    (hok : runInteraction files a b rule sel = .ok res) :
    res.summaries.map (fun e => (e.1, e.2.auc)) =
      (sortedFixedCols df ++ sel).map (fun c =>
        (c, calculate_auc (extractColumn (rangeFilter df a b) c))) ∧
    (runInteraction files a b rule sel).map (fun r => r.summaries.map
      (fun e => (e.1, e.2.auc))) =
    (runInteraction files a b none sel).map (fun r => r.summaries.map
      (fun e => (e.1, e.2.auc))) := by
  constructor
  · rw [runInteraction_ok files a b rule sel df res hload hok, List.map_map]
    rfl
  · exact runInteraction_rule_blind files a b rule sel _
      (fun r1 r2 h => by rw [h])

/-- C10: the minimum and maximum current of every summarized column come
from the raw range-filtered series; in particular they are identical for
every resample rule, so changing the resample rule never changes the
reported min and max. -/
theorem summary_minmax_from_raw (files : List RawFile) (a b : Nat)
    (rule : Option Nat) (sel : List String) (df : Series) (res : Result)
    (hload : load_and_combine_data files = some df)
    (hok : runInteraction files a b rule sel = .ok res) :
    res.summaries.map (fun e => (e.1, e.2.minVal, e.2.maxVal)) =
      (sortedFixedCols df ++ sel).map (fun c =>
        (c, colMin (rangeFilter df a b) c, colMax (rangeFilter df a b) c)) ∧
    (runInteraction files a b rule sel).map (fun r => r.summaries.map
      (fun e => (e.1, e.2.minVal, e.2.maxVal))) =
    (runInteraction files a b none sel).map (fun r => r.summaries.map
      (fun e => (e.1, e.2.minVal, e.2.maxVal))) := by
  constructor
  · rw [runInteraction_ok files a b rule sel df res hload hok, List.map_map]
    rfl
  · exact runInteraction_rule_blind files a b rule sel _
      (fun r1 r2 h => by rw [h])

/-- The successful interaction used by the C3 and C10 witnesses: a wide
range, the 10-second resample rule and R6 selected as a module. -/
def exRes : Result :=
  (runInteraction exFiles 0 100000000000 (some 10) ["R6"]).toOption.getD ⟨[], []⟩

/-- C3 witness: the concrete interaction with the 10-second rule selected;
its summary triples equal the integrator applied to the raw filtered
series, and coincide with the rule-none summaries. -/
theorem summary_auc_from_raw_witness :
    (load_and_combine_data exFiles = some exDf) ∧
    (runInteraction exFiles 0 100000000000 (some 10) ["R6"] = .ok exRes) ∧
    (exRes.summaries.map (fun e => (e.1, e.2.auc)) =
      (sortedFixedCols exDf ++ ["R6"]).map (fun c =>
        (c, calculate_auc (extractColumn (rangeFilter exDf 0 100000000000) c)))) := by
  have hload : load_and_combine_data exFiles = some exDf := rfl
  have hok : runInteraction exFiles 0 100000000000 (some 10) ["R6"] = .ok exRes := rfl
  exact ⟨hload, hok, (summary_auc_from_raw exFiles 0 100000000000 (some 10)
    ["R6"] exDf exRes hload hok).1⟩

/-- C10 witness: in the same concrete interaction the min/max summaries come
from the raw filtered series. -/
theorem summary_minmax_from_raw_witness :
    (load_and_combine_data exFiles = some exDf) ∧
    (runInteraction exFiles 0 100000000000 (some 10) ["R6"] = .ok exRes) ∧
    (exRes.summaries.map (fun e => (e.1, e.2.minVal, e.2.maxVal)) =
      (sortedFixedCols exDf ++ ["R6"]).map (fun c =>
        (c, colMin (rangeFilter exDf 0 100000000000) c,
          colMax (rangeFilter exDf 0 100000000000) c))) := by
  have hload : load_and_combine_data exFiles = some exDf := rfl
  have hok : runInteraction exFiles 0 100000000000 (some 10) ["R6"] = .ok exRes := rfl
  exact ⟨hload, hok, (summary_minmax_from_raw exFiles 0 100000000000 (some 10)
    ["R6"] exDf exRes hload hok).1⟩

/-! ### C5: what the resampler really produces -/

lemma getCell_cons (a : String × ℚ) (t : Row) (c : String) :
    getCell (a :: t) c = if a.1 = c then some a.2 else getCell t c := by
  by_cases h : a.1 = c
  · rw [if_pos h]
    unfold getCell
    rw [List.find?_cons_of_pos _ (by simp [h])]
    rfl
  · rw [if_neg h]
    unfold getCell
    rw [List.find?_cons_of_neg _ (by simp [h])]

lemma getCell_build (cols : List String) (f : String → Option ℚ) (c : String) :
    getCell (cols.filterMap (fun c0 => (f c0).map (fun v => (c0, v)))) c =
      if c ∈ cols then f c else none := by
  induction cols with
  | nil => simp [getCell]
  | cons a t ih =>
    cases hfa : f a with
    | none =>
      simp only [List.filterMap_cons, hfa, Option.map_none']
      rw [ih]
      by_cases hac : a = c
      · subst hac
        by_cases hat : a ∈ t
        · simp [hat, hfa]
        · simp [hat, hfa]
      · have hca : ¬ c = a := fun hh => hac hh.symm
        simp [List.mem_cons, hca]
    | some v =>
      simp only [List.filterMap_cons, hfa, Option.map_some']
      rw [getCell_cons]
      by_cases hac : a = c
      · subst hac
        simp [hfa]
      · have hca : ¬ c = a := fun hh => hac hh.symm
        rw [if_neg hac, ih]
        simp [List.mem_cons, hca]

lemma map_fst_pair {α β : Type} (g : α → β) (l : List α) :
    (l.map (fun b => (b, g b))).map (fun p => p.1) = l := by
  induction l with
  | nil => rfl
  | cons a t ih => simp [ih]

lemma resample_keys (s : Series) (w : Nat) :
    (resample w s).rows.map (fun tr => tr.1) = gridOf s w := by
  unfold resample
  exact map_fst_pair _ _

lemma resample_cell (s : Series) (w b : Nat) (r : Row)
    (hmem : (b, r) ∈ (resample w s).rows) (c : String) (hc : c ∈ s.cols) :
    getCell r c = meanOpt (bucketValues s w b c) := by
  unfold resample at hmem
  simp only [List.mem_map] at hmem
  obtain ⟨b0, hb0, heq⟩ := hmem
  have hb : b0 = b := congrArg Prod.fst heq
  subst hb
  have hr : s.cols.filterMap (fun c0 =>
      (meanOpt (bucketValues s w b0 c0)).map (fun v => (c0, v))) = r :=
    congrArg Prod.snd heq
  rw [← hr, getCell_build, if_pos hc]

lemma mem_gridOf (s : Series) (w : Nat) (hw : 0 < w)
    (hs : List.Sorted tsLe s.rows) (hne : s.rows ≠ []) (t : Nat) :
    t ∈ gridOf s w ↔
      (w ∣ t ∧ bucketOf w (s.rows.headD (0, [])).1 ≤ t ∧
        t ≤ bucketOf w (s.rows.getLastD (0, [])).1) := by
  cases hrows : s.rows with
  | nil => exact absurd hrows hne
  | cons r0 rest =>
    rw [hrows] at hs
    simp only [gridOf, hrows, List.headD_cons]
    rw [getLastD_cons_default r0 ((0 : Nat), ([] : Row)) r0 rest]
    have hfl : bucketOf w r0.1 ≤ bucketOf w ((r0 :: rest).getLastD r0).1 := by
      unfold bucketOf
      exact Nat.mul_le_mul_right w (Nat.div_le_div_right
        (pairwise_head_le_getLastD Prod.fst r0 rest hs))
    have hdf : w ∣ bucketOf w r0.1 := Dvd.intro_left _ rfl
    constructor
    · intro ht
      simp only [List.mem_map, List.mem_range] at ht
      obtain ⟨i, hi, rfl⟩ := ht
      refine ⟨Nat.dvd_add hdf (Dvd.intro_left i rfl), Nat.le_add_right _ _, ?_⟩
      have hile : i ≤ (bucketOf w ((r0 :: rest).getLastD r0).1 - bucketOf w r0.1) / w :=
        Nat.lt_succ_iff.mp hi
      have h1 : i * w ≤ (bucketOf w ((r0 :: rest).getLastD r0).1 - bucketOf w r0.1) / w * w :=
        Nat.mul_le_mul_right w hile
      have h2 : (bucketOf w ((r0 :: rest).getLastD r0).1 - bucketOf w r0.1) / w * w ≤
          bucketOf w ((r0 :: rest).getLastD r0).1 - bucketOf w r0.1 :=
        Nat.div_mul_le_self _ _
      omega
    · rintro ⟨hdvd, hle1, hle2⟩
      have hdvd2 : w ∣ t - bucketOf w r0.1 := Nat.dvd_sub' hdvd hdf
      have hmul : (t - bucketOf w r0.1) / w * w = t - bucketOf w r0.1 :=
        Nat.div_mul_cancel hdvd2
      simp only [List.mem_map, List.mem_range]
      refine ⟨(t - bucketOf w r0.1) / w, ?_, ?_⟩
      · have hmono : (t - bucketOf w r0.1) / w ≤
            (bucketOf w ((r0 :: rest).getLastD r0).1 - bucketOf w r0.1) / w :=
          Nat.div_le_div_right (Nat.sub_le_sub_right hle2 _)
        omega
      · omega

/-- A filtered series with one column and a 15-second gap between its two
rows, so the middle 10-second bucket is empty. -/
def exGapSeries : Series := ⟨["A"], [(0, [("A", 1)]), (25, [("A", 2)])]⟩

unseal Rat.add Rat.mul Rat.inv Rat.sub in
/-- C5 counterexample: raw rows at t = 0 and t = 25 resampled with a
10-second bucket produce three output rows, including the bucket starting
at t = 10 although no raw row falls in it — empty buckets are emitted as
all-missing rows, not omitted. -/
theorem resample_keeps_empty_bucket :
    (resample 10 exGapSeries).rows =
      [(0, [("A", 1)]), (10, []), (20, [("A", 2)])] ∧
    bucketRows exGapSeries 10 10 = [] := by
  exact ⟨by decide, by decide⟩

/-- C5 amended: for every sorted filtered series and positive bucket width,
the resampler emits one row per bucket of the full regular grid from the
first sample's bucket to the last sample's bucket; every column of every
output row is the arithmetic mean of the raw values falling in that bucket
(missing when the bucket has no value); buckets with zero contributing rows
are therefore present as all-missing rows, not omitted, and nothing is
forward- or backward-filled. -/
theorem resample_mean_full_grid (s : Series) (w : Nat) (hw : 0 < w)
    (hs : List.Sorted tsLe s.rows) :
    ((resample w s).rows.map (fun tr => tr.1) = gridOf s w) ∧
    (∀ b r, (b, r) ∈ (resample w s).rows → ∀ c ∈ s.cols,
      getCell r c = meanOpt (bucketValues s w b c)) ∧
    (s.rows ≠ [] → ∀ t : Nat,
      t ∈ gridOf s w ↔
        (w ∣ t ∧ bucketOf w (s.rows.headD (0, [])).1 ≤ t ∧
          t ≤ bucketOf w (s.rows.getLastD (0, [])).1)) := by
  refine ⟨resample_keys s w, ?_, fun hne t => mem_gridOf s w hw hs hne t⟩
  intro b r hmem c hc
  exact resample_cell s w b r hmem c hc

/-- C5 witness: the amended description evaluated on the concrete gapped
series with the 10-second bucket width. -/
theorem resample_mean_full_grid_witness :
    (0 < 10) ∧ List.Sorted tsLe exGapSeries.rows ∧
    (((resample 10 exGapSeries).rows.map (fun tr => tr.1) = gridOf exGapSeries 10) ∧
     (∀ b r, (b, r) ∈ (resample 10 exGapSeries).rows → ∀ c ∈ exGapSeries.cols,
        getCell r c = meanOpt (bucketValues exGapSeries 10 b c)) ∧
     (exGapSeries.rows ≠ [] → ∀ t : Nat,
        t ∈ gridOf exGapSeries 10 ↔
          (10 ∣ t ∧ bucketOf 10 (exGapSeries.rows.headD (0, [])).1 ≤ t ∧
            t ≤ bucketOf 10 (exGapSeries.rows.getLastD (0, [])).1))) :=
  ⟨by decide, by decide, resample_mean_full_grid exGapSeries 10 (by decide) (by decide)⟩

end AnodeApp
